import Mathlib

/-!
Shallow embedding of the ingestion-and-dispatch pipeline of `pitch/pitch.py`
(the tilt-pitch repository).  Bytes are modelled as `Nat` (with explicit
`< 256` bounds where they matter), Python floats as exact rationals `ℚ`,
and the stateful queue/dispatch code as explicit state passing returning
the new state together with a list of observable events (log lines,
sink invocations).  The two threads (producer callback and queue consumer)
are modelled by sequential interleavings of their atomic steps.
-/

namespace Pitch

/-- Lowercase hexadecimal digit character for a value `0 ≤ n < 16`,
as produced by Python's `uuid.UUID` string formatting. -/
def hexDigit (n : Nat) : Char :=
  if n < 10 then Char.ofNat (48 + n) else Char.ofNat (87 + n)

/-- Two lowercase hex characters of one byte (most significant first). -/
def byteToHex (b : Nat) : List Char :=
  [hexDigit (b / 16), hexDigit (b % 16)]

/-- Hex characters of a byte string, in order. -/
def bytesToHex (bs : List Nat) : List Char :=
  bs.flatMap byteToHex

/-- Embeds `str(uuid.UUID(bytes=uuid_bytes))` from `IBeaconParser.parse`:
the canonical lowercase 8-4-4-4-12 dashed hexadecimal rendering of a
16-byte identifier. -/
def uuidStr (bs : List Nat) : String :=
  let h := bytesToHex bs
  String.mk (h.take 8) ++ "-" ++ String.mk ((h.drop 8).take 4) ++ "-" ++
    String.mk ((h.drop 12).take 4) ++ "-" ++ String.mk ((h.drop 16).take 4) ++ "-" ++
    String.mk (h.drop 20)

/-- Big-endian unsigned 16-bit value from two bytes (`struct` format `>H`). -/
def beUInt16 (b0 b1 : Nat) : Nat := b0 * 256 + b1

/-- Signed 8-bit value from one byte (`struct` format `b`). -/
def signedInt8 (b : Nat) : Int :=
  if b < 128 then (b : Int) else (b : Int) - 256

/-- Result of `IBeaconParser.parse` in `pitch/pitch.py`: the identifier is
kept as the UUID-formatted string (exactly as the Python code stores
`str(uuid.UUID(bytes=uuid_bytes))`), major/minor as unsigned 16-bit values
and tx power as a signed 8-bit value. -/
structure DecodedBeacon where
  uuid : String
  major : Nat
  minor : Nat
  tx_power : Int
deriving DecidableEq, Repr

namespace IBeaconParser

/-- Embeds `IBeaconParser.parse(manufacturer_data)` from `pitch/pitch.py`:
`None` (here `none`) for payloads shorter than 23 bytes or whose first two
bytes are not `0x02 0x15`; otherwise bytes 2-17 are the identifier,
bytes 18-19 big-endian major, bytes 20-21 big-endian minor, byte 22 the
signed tx power (`struct.unpack(">16sHHb", manufacturer_data[2:23])`). -/
def parse (manufacturer_data : List Nat) : Option DecodedBeacon :=
  if manufacturer_data.length < 23 then none
  else if manufacturer_data.getD 0 0 ≠ 0x02 ∨ manufacturer_data.getD 1 0 ≠ 0x15 then none
  else
    let body := (manufacturer_data.drop 2).take 21
    some
      { uuid := uuidStr (body.take 16)
        major := beUInt16 (body.getD 16 0) (body.getD 17 0)
        minor := beUInt16 (body.getD 18 0) (body.getD 19 0)
        tx_power := signedInt8 (body.getD 20 0) }

end IBeaconParser

/-- Embeds the module-level `uuid_to_colors` dictionary of `pitch/pitch.py`,
the static identity table from UUID string to color name. -/
def uuid_to_colors : List (String × String) :=
  [("a495bb20-c5b1-4b44-b512-1370f02d74de", "green"),
   ("a495bb30-c5b1-4b44-b512-1370f02d74de", "black"),
   ("a495bb10-c5b1-4b44-b512-1370f02d74de", "red"),
   ("a495bb60-c5b1-4b44-b512-1370f02d74de", "blue"),
   ("a495bb50-c5b1-4b44-b512-1370f02d74de", "orange"),
   ("a495bb70-c5b1-4b44-b512-1370f02d74de", "yellow"),
   ("a495bb40-c5b1-4b44-b512-1370f02d74de", "purple"),
   ("a495bb80-c5b1-4b44-b512-1370f02d74de", "pink"),
   ("a495bb40-c5b1-4b44-b512-1370f02d74df", "simulated")]

/-- Embeds `colors_to_uuid = dict((v, k) for k, v in uuid_to_colors.items())`. -/
def colors_to_uuid : List (String × String) :=
  uuid_to_colors.map (fun p => (p.2, p.1))

/-- Modelled from the spec: `PitchConfig` (from `pitch/configuration.py`,
which is not under `src/`).  Only the configuration values consumed by the
core are modelled: queue capacity, idle-sleep duration, and the acceptable
ranges for temperature and gravity validity (spec section 6). -/
structure PitchConfig where
  queue_size : Nat
  queue_empty_sleep_seconds : Nat
  temp_range_min : ℚ
  temp_range_max : ℚ
  gravity_range_min : ℚ
  gravity_range_max : ℚ
deriving DecidableEq

/-- Modelled from the spec: `TiltStatus` (from `pitch/models.py`, which is
not under `src/`).  A Reading: logical color name, major as temperature in
degrees Fahrenheit, minor scaled to decimal gravity, and the two derived
validity flags.  Immutable once constructed. -/
structure TiltStatus where
  color : String
  temp_fahrenheit : Nat
  gravity : ℚ
  temp_valid : Bool
  gravity_valid : Bool
deriving DecidableEq

/-- Modelled from the spec: the `TiltStatus(color, major, gravity, config)`
constructor of `pitch/models.py` (not under `src/`).  Validity flags are
computed from the configured acceptable ranges: an out-of-range temperature
or gravity sets the corresponding flag false (spec section 4.3). -/
def TiltStatus.build (color : String) (major : Nat) (gravity : ℚ)
    (config : PitchConfig) : TiltStatus :=
  { color := color
    temp_fahrenheit := major
    gravity := gravity
    temp_valid := decide (config.temp_range_min ≤ (major : ℚ) ∧
      (major : ℚ) ≤ config.temp_range_max)
    gravity_valid := decide (config.gravity_range_min ≤ gravity ∧
      gravity ≤ config.gravity_range_max) }

/-- Embeds `_get_decimal_gravity(gravity)` from `pitch/pitch.py`:
`gravity * .001`, with the float `.001` modelled as the exact rational. -/
def _get_decimal_gravity (gravity : Nat) : ℚ :=
  (gravity : ℚ) * (1 / 1000)

/-- State of the module-level `pitch_q = queue.Queue(maxsize=config.queue_size)`:
the fixed capacity and the current FIFO contents (head = oldest). -/
structure PitchQueue where
  maxsize : Nat
  items : List TiltStatus
deriving DecidableEq

namespace PitchQueue

/-- Embeds `Queue.full()`: true exactly when `0 < maxsize <= qsize()`. -/
def full (q : PitchQueue) : Bool :=
  decide (0 < q.maxsize ∧ q.maxsize ≤ q.items.length)

/-- Embeds `Queue.qsize()`. -/
def qsize (q : PitchQueue) : Nat := q.items.length

/-- Embeds `Queue.empty()`. -/
def isEmpty (q : PitchQueue) : Bool := q.items.isEmpty

/-- Embeds `Queue.put_nowait(item)` on a non-full queue: append at the tail.
In `_beacon_callback` it is only reached after the `full()` guard, where it
cannot raise. -/
def put_nowait (q : PitchQueue) (item : TiltStatus) : PitchQueue :=
  { q with items := q.items ++ [item] }

end PitchQueue

/-- Log lines printed by the producer callback `_beacon_callback` when a
Reading fails a validity check. -/
inductive ProducerLog where
  | invalidTemperature (temp_fahrenheit : Nat)
  | invalidGravity (gravity : ℚ)
deriving DecidableEq

/-- The fields of the decoded packet that `_beacon_callback` reads
(`packet.uuid`, `packet.major`, `packet.minor`); the simulated packet has
exactly these fields and the live path passes the full parse result. -/
structure Packet where
  uuid : String
  major : Nat
  minor : Nat
deriving DecidableEq

/-- View of a parse result as the packet consumed by `_beacon_callback`. -/
def DecodedBeacon.toPacket (p : DecodedBeacon) : Packet :=
  { uuid := p.uuid, major := p.major, minor := p.minor }

/-- Embeds `_beacon_callback(bt_addr, rssi, packet, additional_info)` from
`pitch/pitch.py` as a state transformer on the queue, returning the new
queue state and the validity-failure log lines printed.  The unused
`bt_addr`, `rssi` and `additional_info` parameters are omitted.  The body:
return at once if the queue is full; resolve the color (drop silently when
the identifier is unknown); build the `TiltStatus`; drop with a log line
when a validity flag is false; otherwise `put_nowait`. -/
def _beacon_callback (config : PitchConfig) (q : PitchQueue) (packet : Packet) :
    PitchQueue × List ProducerLog :=
  if q.full then (q, [])
  else
    match uuid_to_colors.lookup packet.uuid with
    | none => (q, [])
    | some color =>
      let tilt_status := TiltStatus.build color packet.major
        (_get_decimal_gravity packet.minor) config
      if tilt_status.temp_valid = false then
        (q, [ProducerLog.invalidTemperature tilt_status.temp_fahrenheit])
      else if tilt_status.gravity_valid = false then
        (q, [ProducerLog.invalidGravity tilt_status.gravity])
      else
        (q.put_nowait tilt_status, [])

/-- A sequence of producer insert attempts (one `_beacon_callback` call per
decoded packet, with no intervening consumer removal), collecting the
producer log lines. -/
def runInserts (config : PitchConfig) : PitchQueue → List Packet →
    PitchQueue × List ProducerLog
  | q, [] => (q, [])
  | q, packet :: rest =>
    let step := _beacon_callback config q packet
    let restRun := runInserts config step.1 rest
    (restRun.1, step.2 ++ restRun.2)

/-- Outcome of one `provider.update(tilt_status)` call: normal return,
the rate-limit signal `RateLimitedException` (modelled from the spec as a
distinguished variant, `pitch/rate_limiter.py` not being under `src/`),
or any other raised failure with its message. -/
inductive SinkResult where
  | success
  | rateLimited
  | failure (msg : String)
deriving DecidableEq

/-- A cloud provider as the dispatch loop sees it: a printable name and the
`update` behaviour on each Reading. -/
structure Sink where
  name : String
  update : TiltStatus → SinkResult

/-- Observable events of one consumer cycle `_handle_pitch_queue`:
the invocation of a provider's `update`, the per-provider log lines of its
three outcomes, the queue-full warning, the idle sleep, and the final
JSON echo of the Reading. -/
inductive DispatchEvent where
  | updateCalled (provider : String) (tilt_status : TiltStatus)
  | updatedLog (provider : String) (color : String)
  | rateLimitSkip (provider : String) (color : String)
  | errorLogged (msg : String)
  | queueFullWarning (depth : Nat)
  | idleSleep
  | jsonEcho (tilt_status : TiltStatus)
deriving DecidableEq

/-- Events of the `try: provider.update(tilt_status) ... except` body for one
provider: the `update` call always happens; on success the timing log line is
printed when `console_log` is set; `RateLimitedException` is caught and logged
as a rate-limit skip; any other exception is caught and its message printed. -/
def sinkEvents (console_log : Bool) (provider : Sink) (tilt_status : TiltStatus) :
    List DispatchEvent :=
  DispatchEvent.updateCalled provider.name tilt_status ::
    match provider.update tilt_status with
    | SinkResult.success =>
      if console_log then [DispatchEvent.updatedLog provider.name tilt_status.color] else []
    | SinkResult.rateLimited =>
      [DispatchEvent.rateLimitSkip provider.name tilt_status.color]
    | SinkResult.failure msg => [DispatchEvent.errorLogged msg]

/-- Events of the `for provider in enabled_providers:` loop of
`_handle_pitch_queue` for one dequeued Reading. -/
def dispatchToSinks (console_log : Bool) (enabled_providers : List Sink)
    (tilt_status : TiltStatus) : List DispatchEvent :=
  enabled_providers.flatMap (fun provider => sinkEvents console_log provider tilt_status)

/-- Embeds `_handle_pitch_queue(enabled_providers, console_log)` from
`pitch/pitch.py` as a state transformer on the queue: sleep and return when
idle sleeping is configured and the queue is empty; warn when the queue is
found full; `get(timeout=1)` returns the head Reading or observes
`queue.Empty` (modelled by the queue still being empty) and returns; dispatch
the Reading to every enabled provider in order; echo the Reading as JSON when
`console_log` is set. -/
def _handle_pitch_queue (config : PitchConfig) (enabled_providers : List Sink)
    (console_log : Bool) (q : PitchQueue) : PitchQueue × List DispatchEvent :=
  if 0 < config.queue_empty_sleep_seconds ∧ q.isEmpty then
    (q, [DispatchEvent.idleSleep])
  else
    let warn : List DispatchEvent :=
      if q.full then [DispatchEvent.queueFullWarning q.qsize] else []
    match q.items with
    | [] => (q, warn)
    | tilt_status :: rest =>
      ({ q with items := rest },
        warn ++ dispatchToSinks console_log enabled_providers tilt_status ++
          (if console_log then [DispatchEvent.jsonEcho tilt_status] else []))

/-- The consumer loop `_run_queue_consumer` restricted to a finite number of
cycles: each cycle is one `_handle_pitch_queue` call, and the loop then
proceeds to the next cycle with the new queue state. -/
def consumeCycles (config : PitchConfig) (enabled_providers : List Sink)
    (console_log : Bool) : Nat → PitchQueue → PitchQueue × List DispatchEvent
  | 0, q => (q, [])
  | n + 1, q =>
    let step := _handle_pitch_queue config enabled_providers console_log q
    let rest := consumeCycles config enabled_providers console_log n step.1
    (rest.1, step.2 ++ rest.2)

/-- Recognizer for `update`-invocation events. -/
def isUpdateCalled : DispatchEvent → Bool
  | DispatchEvent.updateCalled _ _ => true
  | _ => false

/-- Recognizer for queue-full warning events. -/
def isQueueFullWarning : DispatchEvent → Bool
  | DispatchEvent.queueFullWarning _ => true
  | _ => false

/-- A 23-byte iBeacon payload for the documented layout: marker bytes
`0x02 0x15`, the 16 identifier bytes, big-endian major and minor, and the
two's-complement byte of the signed tx power. -/
def mkIBeaconPayload (uuid_bytes : List Nat) (major minor : Nat) (tx_power : Int) :
    List Nat :=
  [0x02, 0x15] ++ uuid_bytes ++
    [major / 256, major % 256, minor / 256, minor % 256, (tx_power % 256).toNat]

/-- Value of a lowercase hex digit character, inverse of `hexDigit`. -/
def hexVal (c : Char) : Nat :=
  if 97 ≤ c.toNat then c.toNat - 87 else c.toNat - 48

/-- Bytes of a hex character string, inverse of `bytesToHex`. -/
def unbytesHex : List Char → List Nat
  | c1 :: c2 :: rest => (hexVal c1 * 16 + hexVal c2) :: unbytesHex rest
  | _ => []

/-! Helper lemmas. -/

lemma parse_take23 (p : List Nat) (h : 23 ≤ p.length) :
    IBeaconParser.parse p = IBeaconParser.parse (p.take 23) := by
  unfold IBeaconParser.parse
  have hlen : (p.take 23).length = 23 := by
    simp [List.length_take]
    omega
  have hd0 : (p.take 23).getD 0 0 = p.getD 0 0 := by
    simp [List.getD_eq_getElem?_getD, List.getElem?_take_of_lt (by norm_num : (0:ℕ) < 23)]
  have hd1 : (p.take 23).getD 1 0 = p.getD 1 0 := by
    simp [List.getD_eq_getElem?_getD, List.getElem?_take_of_lt (by norm_num : (1:ℕ) < 23)]
  have hbody : ((p.take 23).drop 2).take 21 = (p.drop 2).take 21 := by
    rw [List.drop_take]
    norm_num [List.take_take]
  rw [hlen, hd0, hd1, hbody]
  simp
  omega

/-- The producer callback either leaves the queue untouched or, when the
queue was not full, appends one Reading at the tail. -/
lemma beacon_callback_fst (config : PitchConfig) (q : PitchQueue) (packet : Packet) :
    (_beacon_callback config q packet).1 = q ∨
      (q.full = false ∧ ∃ ts, (_beacon_callback config q packet).1 = q.put_nowait ts) := by
  unfold _beacon_callback
  split
  · exact Or.inl rfl
  · next hfull =>
    have hf : q.full = false := by
      cases h : q.full
      · rfl
      · exact absurd h hfull
    split
    · exact Or.inl rfl
    · dsimp only
      split
      · exact Or.inl rfl
      · split
        · exact Or.inl rfl
        · exact Or.inr ⟨hf, _, rfl⟩

lemma beacon_callback_maxsize (config : PitchConfig) (q : PitchQueue) (packet : Packet) :
    (_beacon_callback config q packet).1.maxsize = q.maxsize := by
  rcases beacon_callback_fst config q packet with h | ⟨_, ts, h⟩ <;>
    simp [h, PitchQueue.put_nowait]

lemma beacon_callback_length (config : PitchConfig) (q : PitchQueue) (packet : Packet)
    (hpos : 0 < q.maxsize) (hle : q.items.length ≤ q.maxsize) :
    (_beacon_callback config q packet).1.items.length ≤ q.maxsize := by
  rcases beacon_callback_fst config q packet with h | ⟨hf, ts, h⟩
  · simp [h, hle]
  · have : ¬ (0 < q.maxsize ∧ q.maxsize ≤ q.items.length) := by
      simpa [PitchQueue.full] using hf
    simp [h, PitchQueue.put_nowait]
    omega

lemma runInserts_bounded (config : PitchConfig) (packets : List Packet) :
    ∀ q : PitchQueue, 0 < q.maxsize → q.items.length ≤ q.maxsize →
      (runInserts config q packets).1.maxsize = q.maxsize ∧
        (runInserts config q packets).1.items.length ≤ q.maxsize := by
  induction packets with
  | nil => intro q _ hle; exact ⟨rfl, hle⟩
  | cons packet rest ih =>
    intro q hpos hle
    have hmax := beacon_callback_maxsize config q packet
    have hlen := beacon_callback_length config q packet hpos hle
    have := ih (_beacon_callback config q packet).1 (hmax ▸ hpos) (hmax ▸ hlen)
    simpa [runInserts, hmax] using this

end Pitch

namespace Pitch

/-! Claim theorems: decoder totality and input independence. -/

/-- C4: every payload shorter than 23 bytes, and every payload whose first
two bytes are not the marker bytes `0x02 0x15`, is rejected by the decoder
with the not-recognized signal `none`; `parse` is a total function, so it
never raises. -/
theorem C4_malformed_payload_not_recognized (d : List Nat)
    (h : d.length < 23 ∨ d.getD 0 0 ≠ 0x02 ∨ d.getD 1 0 ≠ 0x15) :
    IBeaconParser.parse d = none := by
  unfold IBeaconParser.parse
  rcases h with h | h
  · simp [h]
  · rcases Nat.lt_or_ge d.length 23 with hlen | hlen
    · simp [hlen]
    · simp only [if_neg (Nat.not_lt.mpr hlen)]
      rw [if_pos h]

theorem C4_witness :
    (([] : List Nat).length < 23 ∨ ([] : List Nat).getD 0 0 ≠ 0x02 ∨
        ([] : List Nat).getD 1 0 ≠ 0x15) ∧
      IBeaconParser.parse [] = none :=
  ⟨Or.inl (by decide), C4_malformed_payload_not_recognized [] (Or.inl (by decide))⟩

/-- C10: bytes past index 22 never influence decoding.  Any two payloads of
length at least 23 with equal first 23 bytes decode to equal results. -/
theorem C10_decode_depends_on_first_23_bytes (p1 p2 : List Nat)
    (h1 : 23 ≤ p1.length) (h2 : 23 ≤ p2.length) (h : p1.take 23 = p2.take 23) :
    IBeaconParser.parse p1 = IBeaconParser.parse p2 := by
  rw [parse_take23 p1 h1, parse_take23 p2 h2, h]

/-- C9: when the queue is full at the moment a broadcast arrives, the
producer callback returns immediately: the queue is unchanged and no
validity-failure log line is printed (identity lookup, Reading construction
and validity checks are all skipped). -/
theorem C9_full_queue_short_circuits_callback (config : PitchConfig)
    (q : PitchQueue) (packet : Packet) (h : q.full = true) :
    _beacon_callback config q packet = (q, []) := by
  unfold _beacon_callback
  simp [h]

/-- C2: inserts are non-blocking drops at capacity.  Any sequence of
producer insert attempts starting from a queue within its positive capacity
preserves the capacity and never grows the queue beyond it; an attempt
arriving at a full queue leaves the queue unchanged.  `_beacon_callback`
and `runInserts` are total functions, so no insert raises. -/
theorem C2_insert_never_exceeds_capacity (config : PitchConfig) (q : PitchQueue)
    (packets : List Packet) (hpos : 0 < q.maxsize) (hle : q.items.length ≤ q.maxsize) :
    ((runInserts config q packets).1.maxsize = q.maxsize ∧
        (runInserts config q packets).1.items.length ≤ q.maxsize) ∧
      ∀ packet, q.full = true → (_beacon_callback config q packet).1 = q := by
  refine ⟨runInserts_bounded config packets q hpos hle, fun packet hfull => ?_⟩
  unfold _beacon_callback
  simp [hfull]

/-- C3: a Reading enters the queue only when its identifier resolved in the
identity table to its color and both validity flags are true. -/
theorem C3_enqueued_readings_are_validated (config : PitchConfig) (q : PitchQueue)
    (packet : Packet) (ts : TiltStatus)
    (h : (_beacon_callback config q packet).1.items = q.items ++ [ts]) :
    uuid_to_colors.lookup packet.uuid = some ts.color ∧
      ts.temp_valid = true ∧ ts.gravity_valid = true := by
  unfold _beacon_callback at h
  split at h
  · simp at h
  · split at h
    · simp at h
    · next color heq =>
      dsimp only at h
      split at h
      · simp at h
      · split at h
        · simp at h
        · next h1 h2 =>
          simp only [PitchQueue.put_nowait, List.append_cancel_left_eq,
            List.cons.injEq, and_true] at h
          subst h
          refine ⟨by simpa [TiltStatus.build] using heq, ?_, ?_⟩
          · simpa using h1
          · simpa using h2

end Pitch

namespace Pitch

/-! Helper lemmas for the dispatch loop. -/

/-- Each provider's `update` is invoked exactly once per cycle, whatever its
outcome. -/
lemma sinkEvents_filter_called (console_log : Bool) (provider : Sink)
    (tilt_status : TiltStatus) :
    (sinkEvents console_log provider tilt_status).filter isUpdateCalled =
      [DispatchEvent.updateCalled provider.name tilt_status] := by
  unfold sinkEvents
  cases h : provider.update tilt_status <;>
    cases console_log <;> simp [isUpdateCalled]

lemma dispatch_filter_called (console_log : Bool) (enabled_providers : List Sink)
    (tilt_status : TiltStatus) :
    (dispatchToSinks console_log enabled_providers tilt_status).filter isUpdateCalled =
      enabled_providers.map
        (fun provider => DispatchEvent.updateCalled provider.name tilt_status) := by
  induction enabled_providers with
  | nil => simp [dispatchToSinks]
  | cons provider rest ih =>
    simp only [dispatchToSinks, List.flatMap_cons, List.filter_append]
    rw [sinkEvents_filter_called]
    simpa [dispatchToSinks] using ih

lemma sinkEvents_no_warning (console_log : Bool) (provider : Sink)
    (tilt_status : TiltStatus) :
    (sinkEvents console_log provider tilt_status).filter isQueueFullWarning = [] := by
  unfold sinkEvents
  cases h : provider.update tilt_status <;>
    cases console_log <;> simp [isQueueFullWarning]

lemma dispatch_no_warning (console_log : Bool) (enabled_providers : List Sink)
    (tilt_status : TiltStatus) :
    (dispatchToSinks console_log enabled_providers tilt_status).filter
      isQueueFullWarning = [] := by
  induction enabled_providers with
  | nil => simp [dispatchToSinks]
  | cons provider rest ih =>
    simp only [dispatchToSinks, List.flatMap_cons, List.filter_append]
    rw [sinkEvents_no_warning]
    simpa [dispatchToSinks] using ih

/-- An empty queue is never full (`0 < maxsize ≤ 0` is impossible). -/
lemma full_of_nil {q : PitchQueue} (h : q.items = []) : q.full = false := by
  simp [PitchQueue.full, h]
  omega

/-- Trace of `update` invocations over `n` consumer cycles: the first `n`
queued Readings, each fanned out to every enabled provider in registration
order — whatever each provider's `update` outcome is. -/
lemma consumeCycles_filter_called (config : PitchConfig)
    (enabled_providers : List Sink) (console_log : Bool) :
    ∀ (n : Nat) (q : PitchQueue),
      (consumeCycles config enabled_providers console_log n q).2.filter isUpdateCalled =
        (q.items.take n).flatMap (fun tilt_status => enabled_providers.map
          (fun provider => DispatchEvent.updateCalled provider.name tilt_status)) := by
  intro n
  induction n with
  | zero => intro q; simp [consumeCycles]
  | succ n ih =>
    intro q
    simp only [consumeCycles, _handle_pitch_queue]
    split
    · next hsleep =>
      have hnil : q.items = [] := by
        simpa [PitchQueue.isEmpty, List.isEmpty_iff] using hsleep.2
      simp [ih, hnil, isUpdateCalled]
    · cases hitems : q.items with
      | nil =>
        rw [full_of_nil hitems]
        simp [ih, hitems, isUpdateCalled]
      | cons tilt_status rest =>
        simp only [List.filter_append, dispatch_filter_called]
        rw [ih { q with items := rest }]
        cases hfull : q.full <;> cases console_log <;>
          simp [hitems, isUpdateCalled, isQueueFullWarning]

end Pitch

namespace Pitch

/-! Claim theorems: dispatch-loop fault isolation. -/

/-- C1: over any number of consumer cycles, every Reading removed from the
queue is dispatched to each enabled provider in registration order, whatever
failures the providers' `update` calls signal; a generic failure is caught
and logged with its message (the provider's events are exactly the
invocation and the logged message), the cycle completes over the remaining
providers, and the loop proceeds to subsequent cycles. -/
theorem C1_every_sink_attempted_despite_failures (config : PitchConfig)
    (enabled_providers : List Sink) (console_log : Bool) (n : Nat) (q : PitchQueue) :
    ((consumeCycles config enabled_providers console_log n q).2.filter isUpdateCalled =
        (q.items.take n).flatMap (fun tilt_status => enabled_providers.map
          (fun provider => DispatchEvent.updateCalled provider.name tilt_status))) ∧
      ∀ (provider : Sink) (tilt_status : TiltStatus) (msg : String),
        provider.update tilt_status = SinkResult.failure msg →
          sinkEvents console_log provider tilt_status =
            [DispatchEvent.updateCalled provider.name tilt_status,
              DispatchEvent.errorLogged msg] := by
  refine ⟨consumeCycles_filter_called config enabled_providers console_log n q, ?_⟩
  intro provider tilt_status msg h
  simp [sinkEvents, h]

/-- C5: a rate-limited `update` is caught and logged as a rate-limit skip,
an outcome distinct from the generic failure log; it prevents neither the
dispatch to the remaining providers of the same cycle nor the dispatch to
the same provider on the next cycle. -/
theorem C5_rate_limit_skip_is_isolated (console_log : Bool) (provider : Sink)
    (tilt_status : TiltStatus)
    (h : provider.update tilt_status = SinkResult.rateLimited) :
    (sinkEvents console_log provider tilt_status =
        [DispatchEvent.updateCalled provider.name tilt_status,
          DispatchEvent.rateLimitSkip provider.name tilt_status.color]) ∧
      (∀ msg, DispatchEvent.rateLimitSkip provider.name tilt_status.color ≠
        DispatchEvent.errorLogged msg) ∧
      ∀ (config : PitchConfig) (before after : List Sink) (cap : Nat)
        (next_status : TiltStatus),
        (consumeCycles config (before ++ provider :: after) console_log 2
            { maxsize := cap, items := [tilt_status, next_status] }).2.filter
            isUpdateCalled =
          ((before ++ provider :: after).map
              (fun p => DispatchEvent.updateCalled p.name tilt_status)) ++
            ((before ++ provider :: after).map
              (fun p => DispatchEvent.updateCalled p.name next_status)) := by
  refine ⟨by simp [sinkEvents, h], by simp, ?_⟩
  intro config before after cap next_status
  rw [consumeCycles_filter_called]
  simp

end Pitch

namespace Pitch

/-! Concrete fixtures used by scenario theorems and witnesses. -/

/-- The 16 identifier bytes of the green Tilt. -/
def greenUuidBytes : List Nat :=
  [0xa4, 0x95, 0xbb, 0x20, 0xc5, 0xb1, 0x4b, 0x44,
   0xb5, 0x12, 0x13, 0x70, 0xf0, 0x2d, 0x74, 0xde]

/-- The scenario payload of spec section 8: marker bytes, the green
identifier, then `00 46 04 0B b8`. -/
def greenPayload : List Nat :=
  [0x02, 0x15] ++ greenUuidBytes ++ [0x00, 0x46, 0x04, 0x0B, 0xb8]

/-- A configuration whose validity ranges include 70 degrees Fahrenheit and
gravity 1.035, with no idle sleep. -/
def wideConfig : PitchConfig :=
  { queue_size := 100, queue_empty_sleep_seconds := 0,
    temp_range_min := 32, temp_range_max := 212,
    gravity_range_min := 0, gravity_range_max := 2 }

/-- The packet fields decoded from `greenPayload`. -/
def greenPacket : Packet :=
  { uuid := "a495bb20-c5b1-4b44-b512-1370f02d74de", major := 70, minor := 1035 }

/-- The Reading built from `greenPacket` under `wideConfig`. -/
def greenStatus : TiltStatus :=
  TiltStatus.build "green" 70 (_get_decimal_gravity 1035) wideConfig

/-- An always-succeeding provider. -/
def okSink : Sink := { name := "ok", update := fun _ => SinkResult.success }

/-- A provider whose `update` always raises a generic failure. -/
def failSink : Sink := { name := "fail", update := fun _ => SinkResult.failure "boom" }

/-- A provider whose `update` always raises the rate-limit signal. -/
def limitedSink : Sink := { name := "limited", update := fun _ => SinkResult.rateLimited }

end Pitch

namespace Pitch

/-! Claim theorems: the queue-full warning. -/

/-- C8 (amended): one cycle of the dispatch loop emits exactly one warning
naming the current queue depth exactly when the queue is at capacity at the
start of the cycle, and the warning is diagnostic only: the dequeue result
and all other events are the same as for a capacity under which the queue
is not full. -/
theorem C8_warning_iff_full_at_cycle_start (config : PitchConfig)
    (enabled_providers : List Sink) (console_log : Bool) (items : List TiltStatus)
    (cap1 cap2 : Nat) (h1 : 0 < cap1) (h2 : 0 < cap2) :
    ((_handle_pitch_queue config enabled_providers console_log
        { maxsize := cap1, items := items }).2.filter isQueueFullWarning =
      if cap1 ≤ items.length then [DispatchEvent.queueFullWarning items.length]
      else []) ∧
    (_handle_pitch_queue config enabled_providers console_log
        { maxsize := cap1, items := items }).1.items =
      (_handle_pitch_queue config enabled_providers console_log
        { maxsize := cap2, items := items }).1.items ∧
    (_handle_pitch_queue config enabled_providers console_log
        { maxsize := cap1, items := items }).2.filter
        (fun e => !isQueueFullWarning e) =
      (_handle_pitch_queue config enabled_providers console_log
        { maxsize := cap2, items := items }).2.filter
        (fun e => !isQueueFullWarning e) := by
  cases items with
  | nil =>
    have hf1 : PitchQueue.full { maxsize := cap1, items := ([] : List TiltStatus) } =
        false := full_of_nil rfl
    have hf2 : PitchQueue.full { maxsize := cap2, items := ([] : List TiltStatus) } =
        false := full_of_nil rfl
    have hc1 : ¬ (cap1 ≤ ([] : List TiltStatus).length) := by
      simp only [List.length_nil]; omega
    by_cases hsleep : 0 < config.queue_empty_sleep_seconds <;>
      simp [_handle_pitch_queue, PitchQueue.isEmpty, hf1, hf2, hc1,
        isQueueFullWarning, hsleep] <;> omega
  | cons tilt_status rest =>
    have hcond : ∀ cap : Nat, ¬ (0 < config.queue_empty_sleep_seconds ∧
        (PitchQueue.isEmpty { maxsize := cap, items := tilt_status :: rest }) = true) := by
      intro cap h
      simpa [PitchQueue.isEmpty] using h.2
    have hfull : ∀ cap : Nat, 0 < cap →
        PitchQueue.full { maxsize := cap, items := tilt_status :: rest } =
          decide (cap ≤ rest.length + 1) := by
      intro cap hc
      simp [PitchQueue.full, hc]
    simp only [_handle_pitch_queue, if_neg (hcond cap1), if_neg (hcond cap2),
      hfull cap1 h1, hfull cap2 h2, PitchQueue.qsize]
    refine ⟨?_, by trivial, ?_⟩
    · by_cases hc : cap1 ≤ rest.length + 1 <;>
        cases console_log <;>
          simp [hc, List.filter_append, dispatch_no_warning, isQueueFullWarning]
    · by_cases hc1 : cap1 ≤ rest.length + 1 <;>
        by_cases hc2 : cap2 ≤ rest.length + 1 <;>
          simp [hc1, hc2, List.filter_append, isQueueFullWarning]

/-- C8 counterexample to the claim as stated: with capacity 1 and a single
successful insert into an empty queue, no insert attempt ever found the
queue at capacity (it was not full when the attempt began), yet the next
dispatch cycle does emit the queue-full warning. -/
theorem C8_counterexample :
    PitchQueue.full { maxsize := 1, items := [] } = false ∧
      runInserts wideConfig { maxsize := 1, items := [] } [greenPacket] =
        ({ maxsize := 1, items := [greenStatus] }, []) ∧
      (_handle_pitch_queue wideConfig [] false
          { maxsize := 1, items := [greenStatus] }).2.filter isQueueFullWarning =
        [DispatchEvent.queueFullWarning 1] := by
  refine ⟨by decide, ?_, ?_⟩
  · simp [runInserts, _beacon_callback, uuid_to_colors, greenPacket, greenStatus,
      wideConfig, TiltStatus.build, PitchQueue.put_nowait, PitchQueue.full,
      _get_decimal_gravity]
    norm_num
  · simp [_handle_pitch_queue, PitchQueue.isEmpty, PitchQueue.full,
      PitchQueue.qsize, isQueueFullWarning, wideConfig, dispatchToSinks]

end Pitch

namespace Pitch

/-! Helper lemmas for the decoder round trip. -/

lemma hexVal_hexDigit : ∀ n < 16, hexVal (hexDigit n) = n := by decide

lemma hexDigit_ne_dash : ∀ n < 16, hexDigit n ≠ '-' := by decide

lemma unbytesHex_bytesToHex :
    ∀ bs : List Nat, (∀ b ∈ bs, b < 256) → unbytesHex (bytesToHex bs) = bs := by
  intro bs
  induction bs with
  | nil => intro _; rfl
  | cons b t ih =>
    intro h
    have hb : b < 256 := h b (by simp)
    have h1 : b / 16 < 16 := by omega
    have h2 : b % 16 < 16 := by omega
    have hstep : bytesToHex (b :: t) =
        hexDigit (b / 16) :: hexDigit (b % 16) :: bytesToHex t := by
      simp [bytesToHex, byteToHex]
    rw [hstep, unbytesHex, hexVal_hexDigit _ h1, hexVal_hexDigit _ h2,
      ih (fun x hx => h x (by simp [hx]))]
    have hrec : b / 16 * 16 + b % 16 = b := by omega
    rw [hrec]

lemma bytesToHex_ne_dash :
    ∀ bs : List Nat, (∀ b ∈ bs, b < 256) → ∀ c ∈ bytesToHex bs, c ≠ '-' := by
  intro bs
  induction bs with
  | nil => intro _ c hc; simp [bytesToHex] at hc
  | cons b t ih =>
    intro h c hc
    have hb : b < 256 := h b (by simp)
    simp only [bytesToHex, List.flatMap_cons, byteToHex, List.cons_append,
      List.nil_append, List.mem_cons] at hc
    rcases hc with rfl | rfl | hc
    · exact hexDigit_ne_dash _ (by omega)
    · exact hexDigit_ne_dash _ (by omega)
    · exact ih (fun x hx => h x (by simp [hx])) c (by simpa [bytesToHex] using hc)

lemma uuidStr_data_filter (bs : List Nat) (h : ∀ b ∈ bs, b < 256) :
    (uuidStr bs).data.filter (fun c => c != '-') = bytesToHex bs := by
  have hall : ∀ c ∈ bytesToHex bs, (c != '-') = true := by
    intro c hc
    simpa using bytesToHex_ne_dash bs h c hc
  have htake : ∀ n, ((bytesToHex bs).take n).filter (fun c => c != '-') =
      (bytesToHex bs).take n := by
    intro n
    exact List.filter_eq_self.mpr fun a ha => hall a (List.mem_of_mem_take ha)
  have hdroptake : ∀ m n, (((bytesToHex bs).drop m).take n).filter (fun c => c != '-') =
      ((bytesToHex bs).drop m).take n := by
    intro m n
    exact List.filter_eq_self.mpr fun a ha =>
      hall a (List.mem_of_mem_drop (List.mem_of_mem_take ha))
  have hdrop : ∀ m, ((bytesToHex bs).drop m).filter (fun c => c != '-') =
      (bytesToHex bs).drop m := by
    intro m
    exact List.filter_eq_self.mpr fun a ha => hall a (List.mem_of_mem_drop ha)
  have hdash : (String.mk ['-']).data.filter (fun c => c != '-') = [] := by decide
  unfold uuidStr
  simp only [String.data_append, List.filter_append, htake, hdroptake, hdrop]
  have hm : ∀ l : List Char, (String.mk l).data = l := fun _ => rfl
  simp only [hm] at hdash ⊢
  have hdash2 : ("-" : String).data.filter (fun c => c != '-') = [] := hdash
  simp only [hdash2, List.append_nil, List.nil_append, ← List.append_assoc]
  rw [← List.take_add (bytesToHex bs) 8 4, ← List.take_add (bytesToHex bs) 12 4,
    ← List.take_add (bytesToHex bs) 16 4]
  norm_num [List.take_append_drop]

/-- The UUID-string rendering is injective on byte strings. -/
lemma uuidStr_inj (u u' : List Nat) (h : ∀ b ∈ u, b < 256) (h' : ∀ b ∈ u', b < 256)
    (heq : uuidStr u = uuidStr u') : u = u' := by
  have hd : (uuidStr u).data = (uuidStr u').data := by rw [heq]
  have hhex : bytesToHex u = bytesToHex u' := by
    rw [← uuidStr_data_filter u h, ← uuidStr_data_filter u' h', hd]
  calc u = unbytesHex (bytesToHex u) := (unbytesHex_bytesToHex u h).symm
    _ = unbytesHex (bytesToHex u') := by rw [hhex]
    _ = u' := unbytesHex_bytesToHex u' h'

lemma exists_sixteen (l : List Nat) (h : l.length = 16) :
    ∃ b0 b1 b2 b3 b4 b5 b6 b7 b8 b9 b10 b11 b12 b13 b14 b15,
      l = [b0, b1, b2, b3, b4, b5, b6, b7, b8, b9, b10, b11, b12, b13, b14, b15] := by
  rcases l with _ | ⟨b0, l⟩
  · simp only [List.length_nil] at h; omega
  rcases l with _ | ⟨b1, l⟩
  · simp only [List.length_cons, List.length_nil] at h; omega
  rcases l with _ | ⟨b2, l⟩
  · simp only [List.length_cons, List.length_nil] at h; omega
  rcases l with _ | ⟨b3, l⟩
  · simp only [List.length_cons, List.length_nil] at h; omega
  rcases l with _ | ⟨b4, l⟩
  · simp only [List.length_cons, List.length_nil] at h; omega
  rcases l with _ | ⟨b5, l⟩
  · simp only [List.length_cons, List.length_nil] at h; omega
  rcases l with _ | ⟨b6, l⟩
  · simp only [List.length_cons, List.length_nil] at h; omega
  rcases l with _ | ⟨b7, l⟩
  · simp only [List.length_cons, List.length_nil] at h; omega
  rcases l with _ | ⟨b8, l⟩
  · simp only [List.length_cons, List.length_nil] at h; omega
  rcases l with _ | ⟨b9, l⟩
  · simp only [List.length_cons, List.length_nil] at h; omega
  rcases l with _ | ⟨b10, l⟩
  · simp only [List.length_cons, List.length_nil] at h; omega
  rcases l with _ | ⟨b11, l⟩
  · simp only [List.length_cons, List.length_nil] at h; omega
  rcases l with _ | ⟨b12, l⟩
  · simp only [List.length_cons, List.length_nil] at h; omega
  rcases l with _ | ⟨b13, l⟩
  · simp only [List.length_cons, List.length_nil] at h; omega
  rcases l with _ | ⟨b14, l⟩
  · simp only [List.length_cons, List.length_nil] at h; omega
  rcases l with _ | ⟨b15, l⟩
  · simp only [List.length_cons, List.length_nil] at h; omega
  rcases l with _ | ⟨b16, l⟩
  · exact ⟨b0, b1, b2, b3, b4, b5, b6, b7, b8, b9, b10, b11, b12, b13, b14, b15, rfl⟩
  · simp only [List.length_cons, List.length_nil] at h; omega

lemma signedInt8_encode (t : Int) (h1 : -128 ≤ t) (h2 : t < 128) :
    signedInt8 (t % 256).toNat = t := by
  unfold signedInt8
  split <;> omega

end Pitch

namespace Pitch

/-! Claim theorems: decoder round trip and the section-8 scenario. -/

/-- C6: decoding is deterministic (it is a function) and lossless: a 23-byte
payload built from marker bytes, a 16-byte identifier, big-endian major and
minor and a signed tx power decodes to exactly those fields, and the decoded
identifier string determines the identifier bytes uniquely. -/
theorem C6_decode_roundtrip (u : List Nat) (major minor : Nat) (tx_power : Int)
    (hlen : u.length = 16) (hbytes : ∀ b ∈ u, b < 256)
    (hmaj : major < 65536) (hmin : minor < 65536)
    (htx1 : -128 ≤ tx_power) (htx2 : tx_power < 128) :
    IBeaconParser.parse (mkIBeaconPayload u major minor tx_power) =
        some { uuid := uuidStr u, major := major, minor := minor,
               tx_power := tx_power } ∧
      ∀ u' : List Nat, u'.length = 16 → (∀ b ∈ u', b < 256) →
        uuidStr u' = uuidStr u → u' = u := by
  constructor
  · obtain ⟨b0, b1, b2, b3, b4, b5, b6, b7, b8, b9, b10, b11, b12, b13, b14, b15, rfl⟩ :=
      exists_sixteen u hlen
    simp only [mkIBeaconPayload, List.cons_append, List.nil_append]
    simp [IBeaconParser.parse, beUInt16, signedInt8_encode tx_power htx1 htx2]
    omega
  · intro u' _ hb heq
    exact uuidStr_inj u' u hb hbytes heq

end Pitch

namespace Pitch

/-- C7 counterexample to the claim as stated: minor bytes `04 0B` of the
scenario payload decode to 1035, not 1000, so the Reading's gravity is
1.035, not 1.000. -/
theorem C7_counterexample :
    IBeaconParser.parse greenPayload =
        some { uuid := "a495bb20-c5b1-4b44-b512-1370f02d74de", major := 70,
               minor := 1035, tx_power := -72 } ∧
      (1035 : Nat) ≠ 1000 ∧ _get_decimal_gravity 1035 ≠ 1 := by
  refine ⟨by decide, by decide, ?_⟩
  unfold _get_decimal_gravity
  norm_num

/-- C7 (amended): the scenario payload decodes to major 70 and minor 1035,
yielding a Reading with temperature 70 degrees Fahrenheit and gravity 1.035;
under a configuration whose valid ranges include these values the Reading is
enqueued, and one registered always-succeeding provider has its `update`
invoked exactly once, with that Reading. -/
theorem C7_scenario_pipeline :
    IBeaconParser.parse greenPayload =
        some { uuid := "a495bb20-c5b1-4b44-b512-1370f02d74de", major := 70,
               minor := 1035, tx_power := -72 } ∧
      (IBeaconParser.parse greenPayload).map DecodedBeacon.toPacket =
        some greenPacket ∧
      greenStatus.color = "green" ∧
      greenStatus.temp_fahrenheit = 70 ∧
      greenStatus.gravity = 1035 / 1000 ∧
      greenStatus.temp_valid = true ∧
      greenStatus.gravity_valid = true ∧
      _beacon_callback wideConfig { maxsize := 100, items := [] } greenPacket =
        ({ maxsize := 100, items := [greenStatus] }, []) ∧
      (_handle_pitch_queue wideConfig [okSink] true
          { maxsize := 100, items := [greenStatus] }).2.filter isUpdateCalled =
        [DispatchEvent.updateCalled "ok" greenStatus] ∧
      (_handle_pitch_queue wideConfig [okSink] true
          { maxsize := 100, items := [greenStatus] }).1 =
        { maxsize := 100, items := [] } := by
  refine ⟨by decide, by decide, by simp [greenStatus, TiltStatus.build], rfl, ?_, ?_, ?_, ?_, ?_, ?_⟩
  · norm_num [greenStatus, TiltStatus.build, _get_decimal_gravity]
  · norm_num [greenStatus, TiltStatus.build, wideConfig]
  · norm_num [greenStatus, TiltStatus.build, wideConfig, _get_decimal_gravity]
  · simp [_beacon_callback, uuid_to_colors, greenPacket, greenStatus, wideConfig,
      TiltStatus.build, PitchQueue.put_nowait, PitchQueue.full, _get_decimal_gravity]
    norm_num
  · simp [_handle_pitch_queue, PitchQueue.isEmpty, PitchQueue.full, PitchQueue.qsize,
      wideConfig, dispatchToSinks, sinkEvents, okSink, isUpdateCalled]
  · simp [_handle_pitch_queue, PitchQueue.isEmpty, PitchQueue.full, wideConfig]

end Pitch

namespace Pitch

theorem C1_witness :
    ((consumeCycles wideConfig [failSink] false 1
        { maxsize := 100, items := [greenStatus] }).2.filter isUpdateCalled =
      (({ maxsize := 100, items := [greenStatus] } : PitchQueue).items.take 1).flatMap
        (fun tilt_status => [failSink].map
          (fun provider => DispatchEvent.updateCalled provider.name tilt_status))) ∧
      failSink.update greenStatus = SinkResult.failure "boom" ∧
      sinkEvents false failSink greenStatus =
        [DispatchEvent.updateCalled failSink.name greenStatus,
          DispatchEvent.errorLogged "boom"] :=
  ⟨(C1_every_sink_attempted_despite_failures wideConfig [failSink] false 1
      { maxsize := 100, items := [greenStatus] }).1, rfl,
    (C1_every_sink_attempted_despite_failures wideConfig [failSink] false 1
      { maxsize := 100, items := [greenStatus] }).2 failSink greenStatus "boom" rfl⟩

theorem C2_witness :
    (0 < (1 : Nat)) ∧ (([] : List TiltStatus).length ≤ 1) ∧
      (((runInserts wideConfig { maxsize := 1, items := [] }
            [greenPacket, greenPacket]).1.maxsize = 1 ∧
          (runInserts wideConfig { maxsize := 1, items := [] }
            [greenPacket, greenPacket]).1.items.length ≤ 1) ∧
        ∀ packet, PitchQueue.full { maxsize := 1, items := [] } = true →
          (_beacon_callback wideConfig { maxsize := 1, items := [] } packet).1 =
            { maxsize := 1, items := [] }) :=
  ⟨by decide, by decide,
    C2_insert_never_exceeds_capacity wideConfig { maxsize := 1, items := [] }
      [greenPacket, greenPacket] (by decide) (by decide)⟩

theorem C3_witness :
    ((_beacon_callback wideConfig { maxsize := 100, items := [] } greenPacket).1.items =
        ([] : List TiltStatus) ++ [greenStatus]) ∧
      (uuid_to_colors.lookup greenPacket.uuid = some greenStatus.color ∧
        greenStatus.temp_valid = true ∧ greenStatus.gravity_valid = true) := by
  have hin : (_beacon_callback wideConfig { maxsize := 100, items := [] }
      greenPacket).1.items = ([] : List TiltStatus) ++ [greenStatus] := by
    simp [_beacon_callback, uuid_to_colors, greenPacket, greenStatus, wideConfig,
      TiltStatus.build, PitchQueue.put_nowait, PitchQueue.full, _get_decimal_gravity]
    norm_num
  exact ⟨hin, C3_enqueued_readings_are_validated wideConfig
    { maxsize := 100, items := [] } greenPacket greenStatus hin⟩

theorem C5_witness :
    limitedSink.update greenStatus = SinkResult.rateLimited ∧
      sinkEvents false limitedSink greenStatus =
        [DispatchEvent.updateCalled limitedSink.name greenStatus,
          DispatchEvent.rateLimitSkip limitedSink.name greenStatus.color] ∧
      DispatchEvent.rateLimitSkip limitedSink.name greenStatus.color ≠
        DispatchEvent.errorLogged "boom" ∧
      (consumeCycles wideConfig ([] ++ limitedSink :: [okSink]) false 2
          { maxsize := 100, items := [greenStatus, greenStatus] }).2.filter
          isUpdateCalled =
        (([] ++ limitedSink :: [okSink]).map
            (fun p : Sink => DispatchEvent.updateCalled p.name greenStatus)) ++
          (([] ++ limitedSink :: [okSink]).map
            (fun p : Sink => DispatchEvent.updateCalled p.name greenStatus)) :=
  ⟨rfl,
    (C5_rate_limit_skip_is_isolated false limitedSink greenStatus rfl).1,
    (C5_rate_limit_skip_is_isolated false limitedSink greenStatus rfl).2.1 "boom",
    (C5_rate_limit_skip_is_isolated false limitedSink greenStatus rfl).2.2
      wideConfig [] [okSink] 100 greenStatus⟩

theorem C6_witness :
    (greenUuidBytes.length = 16 ∧ (∀ b ∈ greenUuidBytes, b < 256) ∧
        (70 : Nat) < 65536 ∧ (1035 : Nat) < 65536 ∧
        (-128 : Int) ≤ -72 ∧ (-72 : Int) < 128) ∧
      (IBeaconParser.parse (mkIBeaconPayload greenUuidBytes 70 1035 (-72)) =
          some { uuid := uuidStr greenUuidBytes, major := 70, minor := 1035,
                 tx_power := -72 } ∧
        ∀ u' : List Nat, u'.length = 16 → (∀ b ∈ u', b < 256) →
          uuidStr u' = uuidStr greenUuidBytes → u' = greenUuidBytes) :=
  ⟨⟨by decide, by decide, by decide, by decide, by decide, by decide⟩,
    C6_decode_roundtrip greenUuidBytes 70 1035 (-72) (by decide) (by decide)
      (by decide) (by decide) (by decide) (by decide)⟩

theorem C8_witness :
    (0 < (1 : Nat)) ∧ (0 < (2 : Nat)) ∧
      (((_handle_pitch_queue wideConfig [] false
            { maxsize := 1, items := [greenStatus] }).2.filter isQueueFullWarning =
          if 1 ≤ [greenStatus].length
          then [DispatchEvent.queueFullWarning [greenStatus].length] else []) ∧
        (_handle_pitch_queue wideConfig [] false
            { maxsize := 1, items := [greenStatus] }).1.items =
          (_handle_pitch_queue wideConfig [] false
            { maxsize := 2, items := [greenStatus] }).1.items ∧
        (_handle_pitch_queue wideConfig [] false
            { maxsize := 1, items := [greenStatus] }).2.filter
            (fun e => !isQueueFullWarning e) =
          (_handle_pitch_queue wideConfig [] false
            { maxsize := 2, items := [greenStatus] }).2.filter
            (fun e => !isQueueFullWarning e)) :=
  ⟨by decide, by decide,
    C8_warning_iff_full_at_cycle_start wideConfig [] false [greenStatus] 1 2
      (by decide) (by decide)⟩

theorem C9_witness :
    PitchQueue.full { maxsize := 1, items := [greenStatus] } = true ∧
      _beacon_callback wideConfig { maxsize := 1, items := [greenStatus] }
          greenPacket =
        ({ maxsize := 1, items := [greenStatus] }, []) :=
  ⟨by decide,
    C9_full_queue_short_circuits_callback wideConfig
      { maxsize := 1, items := [greenStatus] } greenPacket (by decide)⟩

theorem C10_witness :
    (23 ≤ (greenPayload ++ [7]).length) ∧ (23 ≤ (greenPayload ++ [9]).length) ∧
      (greenPayload ++ [7]).take 23 = (greenPayload ++ [9]).take 23 ∧
      IBeaconParser.parse (greenPayload ++ [7]) =
        IBeaconParser.parse (greenPayload ++ [9]) :=
  ⟨by decide, by decide, by decide,
    C10_decode_depends_on_first_23_bytes (greenPayload ++ [7]) (greenPayload ++ [9])
      (by decide) (by decide) (by decide)⟩

end Pitch
